import Mathlib

/-!
# Book-list GraphQL API: resolvers over a document store

Shallow embedding of `src/NEW/breakThisDown.js`: the GraphQL type definitions
(`typeDefs`), the five resolvers (`resolvers.Query.getUser`,
`resolvers.Mutation.createUser`, `loginUser`, `saveBook`, `deleteBook`) and the
document-store calls they make (`User.findOne`, `User.create`,
`User.findOneAndUpdate` with the `$addToSet` and `$pull` update operators).

The `users` collection is a list of documents in natural (insertion) order.
Every resolver is a function from the store and its arguments to the pair of
its outcome (a value, or the exception it throws) and the store afterwards.
-/

namespace BookApi

/-- GraphQL `ID` / the store's `_id` value: an identifier compared only for
equality, represented by a natural number. -/
abbrev ID := Nat

/-- One field of a GraphQL input object as the resolver receives it. Every field
of `input SaveBookInput` is nullable, so its key is absent from the object
(`omitted`), present with an explicit `null`, or present with a value. -/
inductive Field (α : Type) where
  | omitted
  | null
  | value (a : α)
deriving DecidableEq, Repr

/-- What a caller reads for a field of a stored document: `null` when the key is
absent and when it holds `null`, the value otherwise. -/
def Field.resolve {α : Type} : Field α → Option α
  | .omitted => none
  | .null => none
  | .value a => some a

/-- A book document: the `input SaveBookInput` object of `typeDefs` as the
resolver receives it, its keys in the order of the type's declaration. `saveBook`
hands this object unchanged to `$addToSet`, so it is also the document embedded
in a user's `savedBooks`. `authors` is a nullable list of nullable strings. -/
structure Book where
  bookId : Field String
  title : Field String
  authors : Field (List (Option String))
  description : Field String
  image : Field String
  link : Field String
deriving DecidableEq, Repr

/-- The `input SaveBookInput` object is a book document. -/
abbrev SaveBookInput := Book

/-- GraphQL `type Book` of `typeDefs`: the six nullable fields a caller can
select on a saved book. -/
structure typeDefs.Book where
  bookId : Option String
  title : Option String
  authors : Option (List (Option String))
  description : Option String
  image : Option String
  link : Option String
deriving DecidableEq, Repr

/-- What the GraphQL runtime sends for a resolved `Book`: each declared field
read off the document. -/
def typeDefs.Book.resolve (doc : BookApi.Book) : typeDefs.Book :=
  { bookId := doc.bookId.resolve, title := doc.title.resolve,
    authors := doc.authors.resolve, description := doc.description.resolve,
    image := doc.image.resolve, link := doc.link.resolve }

/-- Specification predicate: two book documents are equal in all fields
(bookId, title, authors, description, image, link), that is, a caller reads the
same six values from both. -/
def EqualInAllFields (a b : Book) : Prop :=
  typeDefs.Book.resolve a = typeDefs.Book.resolve b

/-- A stored user document: the fields of `type User` plus the stored password
(hash), which the data layer keeps and `isCorrectPassword` reads. -/
structure User where
  _id : ID
  username : String
  email : String
  password : String
  savedBooks : List Book
deriving DecidableEq, Repr

/-- The `users` collection, in natural order. -/
abbrev Store := List User

/-- GraphQL `type User` of `typeDefs`: the fields a caller can select. -/
structure typeDefs.User where
  _id : ID
  username : String
  email : String
  savedBooks : List typeDefs.Book
deriving DecidableEq, Repr

/-- GraphQL `type AuthPayload` of `typeDefs`. -/
structure typeDefs.AuthPayload where
  token : String
  user : typeDefs.User
deriving DecidableEq, Repr

/-- GraphQL `input CreateUserInput` of `typeDefs`: three nullable strings. -/
structure CreateUserInput where
  username : Option String
  email : Option String
  password : Option String
deriving DecidableEq, Repr

/-- The object a resolver returns for an `AuthPayload` field: `{ token, user }`
with `user` the store document. -/
structure AuthPayload where
  token : String
  user : User
deriving DecidableEq, Repr

/-- What the GraphQL runtime sends for a resolved `User`: the fields declared in
`typeDefs`, read off the document. -/
def typeDefs.User.resolve (doc : BookApi.User) : typeDefs.User :=
  { _id := doc._id, username := doc.username, email := doc.email,
    savedBooks := doc.savedBooks.map typeDefs.Book.resolve }

/-- What the GraphQL runtime sends for a resolved `AuthPayload`. -/
def typeDefs.AuthPayload.resolve (p : BookApi.AuthPayload) : typeDefs.AuthPayload :=
  { token := p.token, user := typeDefs.User.resolve p.user }

/-- The exceptions a resolver call can end with. `Error message` is what
`throw new Error(message)` raises; `AuthenticationError` is the GraphQL server
library's authentication error class; `ValidationError` is raised by the data
layer; `TypeError` is a property read on an absent value. -/
inductive Exception where
  | Error (message : String)
  | AuthenticationError (message : String)
  | ValidationError
  | TypeError
deriving DecidableEq, Repr

/-- The user the request middleware put in the resolver context; the resolvers
read only its `_id`. -/
structure ContextUser where
  _id : ID
deriving DecidableEq, Repr

/-- The resolver context, `{ user }`; `user` is absent on an unauthenticated
request. -/
structure Context where
  user : Option ContextUser
deriving DecidableEq, Repr

/-- Modelled from the spec: the parts of `../models` and `../utils/auth` the
resolvers call and that are not in the source file. `signToken` is the Token
Issuer; `isCorrectPassword user password` is the Credential Verifier's answer
as the resolver tests it (the truth value of `user.isCorrectPassword(password)`);
`validBook` is the outcome of the schema validators that `runValidators: true`
runs on a saved book (required fields present); `hashPassword` is the
non-reversible stored form of a password; `newId` is the `_id` the store gives
a new document. -/
structure DataLayer where
  signToken : User → String
  isCorrectPassword : User → String → Bool
  validBook : Book → Bool
  hashPassword : String → String
  newId : Store → ID

/-- Model call `User.findOne(filter)`: the first document of the collection that
matches the filter, or `null`. -/
def User.findOne (store : Store) (filter : User → Bool) : Option User :=
  store.find? filter

/-- Model call `User.findOneAndUpdate(filter, update, { new: true })`: the first
document matching `filter` is replaced by its update; returns the updated
document (`null` when nothing matches) and the collection afterwards. -/
def User.findOneAndUpdate (filter : User → Bool) (update : User → User) :
    Store → Option User × Store
  | [] => (none, [])
  | doc :: rest =>
    if filter doc then (some (update doc), update doc :: rest)
    else
      let r := User.findOneAndUpdate filter update rest
      (r.1, doc :: r.2)

/-- Update operator `{ $addToSet: { savedBooks: input } }`: appends `input` to
the end of the array unless an element that is the same document (the same keys
with the same values, an omitted key being different from a key holding `null`)
is already there; elements already in the array are left as they are. -/
def addToSet (input : Book) (doc : User) : User :=
  if input ∈ doc.savedBooks then doc
  else { doc with savedBooks := doc.savedBooks ++ [input] }

/-- Update operator `{ $pull: { savedBooks: { bookId } } }`: removes every array
element whose `bookId` field holds the given string and keeps the others in
place. -/
def pull (bookId : String) (doc : User) : User :=
  { doc with savedBooks := doc.savedBooks.filter (fun b => b.bookId != .value bookId) }

/-- Modelled from the spec: `User.create(input)` of the `User` model in
`../models`, which is not in the source file. It fails with a ValidationError
when a required field (username, email, password) is missing or the username or
the email is already used; otherwise it stores, after the existing documents, a
new user with a store-given `_id`, the input's username and email, the password
in its non-reversible stored form and an empty `savedBooks`. -/
def User.create (dl : DataLayer) (store : Store) (input : CreateUserInput) :
    Except Exception User × Store :=
  match input.username, input.email, input.password with
  | some username, some email, some password =>
    if store.any (fun u => u.username == username || u.email == email) then
      (.error .ValidationError, store)
    else
      let user : User :=
        { _id := dl.newId store, username := username, email := email,
          password := dl.hashPassword password, savedBooks := [] }
      (.ok user, store ++ [user])
  | _, _, _ => (.error .ValidationError, store)

/-- Resolver `Query.getUser(_, { id, username })`: `findOne` with
`$or: [{ _id: id }, { username }]`. -/
def resolvers.Query.getUser (store : Store) (id : Option ID) (username : Option String) :
    Except Exception (Option User) × Store :=
  (.ok (User.findOne store (fun u => some u._id == id || some u.username == username)), store)

/-- Resolver `Mutation.createUser(_, { input })`: an exception of `User.create`
passes through; otherwise the payload is `{ token, user }`. -/
def resolvers.Mutation.createUser (dl : DataLayer) (store : Store) (input : CreateUserInput) :
    Except Exception AuthPayload × Store :=
  match User.create dl store input with
  | (.error e, store1) => (.error e, store1)
  | (.ok user, store1) =>
    let token := dl.signToken user
    (.ok { token := token, user := user }, store1)

/-- Resolver `Mutation.loginUser(_, { usernameOrEmail, password })`, both
arguments supplied: `findOne` with
`$or: [{ username: usernameOrEmail }, { email: usernameOrEmail }]`, then the
guard `!user || !user.isCorrectPassword(password)`. -/
def resolvers.Mutation.loginUser (dl : DataLayer) (store : Store)
    (usernameOrEmail password : String) : Except Exception AuthPayload × Store :=
  match User.findOne store
      (fun u => u.username == usernameOrEmail || u.email == usernameOrEmail) with
  | none => (.error (.Error "Invalid credentials"), store)
  | some user =>
    if !dl.isCorrectPassword user password then
      (.error (.Error "Invalid credentials"), store)
    else
      let token := dl.signToken user
      (.ok { token := token, user := user }, store)

/-- Resolver `Mutation.saveBook(_, { input }, { user })`: reading `user._id` of an
absent context user is a TypeError; `runValidators: true` rejects an invalid
book before anything is written. -/
def resolvers.Mutation.saveBook (dl : DataLayer) (store : Store) (input : SaveBookInput)
    (context : Context) : Except Exception (Option User) × Store :=
  match context.user with
  | none => (.error .TypeError, store)
  | some user =>
    if dl.validBook input then
      let r := User.findOneAndUpdate (fun u => u._id == user._id) (addToSet input) store
      (.ok r.1, r.2)
    else (.error .ValidationError, store)

/-- Resolver `Mutation.deleteBook(_, { bookId }, { user })`, `bookId` supplied. -/
def resolvers.Mutation.deleteBook (store : Store) (bookId : String) (context : Context) :
    Except Exception (Option User) × Store :=
  match context.user with
  | none => (.error .TypeError, store)
  | some user =>
    let r := User.findOneAndUpdate (fun u => u._id == user._id) (pull bookId) store
    (.ok r.1, r.2)

/-- One request to the API: a resolver with its arguments and context. -/
inductive Request where
  | getUser (id : Option ID) (username : Option String)
  | createUser (input : CreateUserInput)
  | loginUser (usernameOrEmail password : String)
  | saveBook (input : SaveBookInput) (context : Context)
  | deleteBook (bookId : String) (context : Context)
deriving DecidableEq, Repr

/-- The store after one request has been served. -/
def serve (dl : DataLayer) (store : Store) : Request → Store
  | .getUser id username => (resolvers.Query.getUser store id username).2
  | .createUser input => (resolvers.Mutation.createUser dl store input).2
  | .loginUser usernameOrEmail password =>
    (resolvers.Mutation.loginUser dl store usernameOrEmail password).2
  | .saveBook input context => (resolvers.Mutation.saveBook dl store input context).2
  | .deleteBook bookId context => (resolvers.Mutation.deleteBook store bookId context).2

/-- The store after a sequence of requests, served one after the other. -/
def serveAll (dl : DataLayer) (store : Store) (requests : List Request) : Store :=
  requests.foldl (serve dl) store

/-- Specification predicate: `u` is the first document of the collection whose
username or email is `usernameOrEmail`. -/
def Located (store : Store) (usernameOrEmail : String) (u : User) : Prop :=
  ∃ before after, store = before ++ u :: after ∧
    (u.username = usernameOrEmail ∨ u.email = usernameOrEmail) ∧
    ∀ v ∈ before, v.username ≠ usernameOrEmail ∧ v.email ≠ usernameOrEmail

/-- Specification predicate: `u` is the caller's stored document, the first one
whose `_id` is `id`. -/
def StoredAs (store : Store) (id : ID) (u : User) : Prop :=
  ∃ before after, store = before ++ u :: after ∧ u._id = id ∧ ∀ v ∈ before, v._id ≠ id

/-- Specification predicate: no user's `savedBooks` holds the same book document
twice. -/
def NoDuplicates (store : Store) : Prop :=
  ∀ u ∈ store, u.savedBooks.Nodup

/-- Specification predicate (frame of a book-list mutation): going from `store`
to `after`, the list of users with their `_id`, username, email and stored
password is the same; a record that differs is the record of a user whose `_id`
is the caller's; at most one record differs. -/
def OnlyCallerBooksChanged (context : Context) (store after : Store) : Prop :=
  after.map (fun u => (u._id, u.username, u.email, u.password)) =
      store.map (fun u => (u._id, u.username, u.email, u.password)) ∧
    (∀ i : Nat, after[i]? ≠ store[i]? →
      ∃ (caller : ContextUser) (u : User),
        context.user = some caller ∧ store[i]? = some u ∧ u._id = caller._id) ∧
    (∀ i j : Nat, after[i]? ≠ store[i]? → after[j]? ≠ store[j]? → i = j)

/-! ## Sample data -/

/-- A concrete data layer for the examples: tokens and hashes are tagged
strings, a book is valid when it has a `bookId`, ids count the documents. -/
def sampleLayer : DataLayer where
  signToken := fun u => "token-" ++ u.username
  isCorrectPassword := fun u password => u.password == "hash-" ++ password
  validBook := fun b => b.bookId.resolve.isSome
  hashPassword := fun password => "hash-" ++ password
  newId := fun store => store.length

/-- Example book `b1`: bookId, title and an empty authors list supplied, the
other keys omitted. -/
def bookB1 : Book :=
  { bookId := .value "b1", title := .value "T", authors := .value [],
    description := .omitted, image := .omitted, link := .omitted }

/-- Example book `b1` again, with `description: null` supplied instead of
omitted. -/
def bookB1Null : Book :=
  { bookId := .value "b1", title := .value "T", authors := .value [],
    description := .null, image := .omitted, link := .omitted }

/-- Example book `b2`. -/
def bookB2 : Book :=
  { bookId := .value "b2", title := .value "U", authors := .value [some "A"],
    description := .omitted, image := .omitted, link := .omitted }

/-- Example user `ada` with the given saved books. -/
def ada (books : List Book) : User :=
  { _id := 0, username := "ada", email := "ada@x.com", password := "hash-secret",
    savedBooks := books }

/-- Example user `bob`. -/
def bob : User :=
  { _id := 1, username := "bob", email := "bob@x.com", password := "hash-pw",
    savedBooks := [bookB2] }

/-! ## The example scenario of the specification -/

theorem scenario_createUser :
    resolvers.Mutation.createUser sampleLayer []
        ⟨some "ada", some "ada@x.com", some "secret"⟩ =
      (.ok ⟨"token-ada", ada []⟩, [ada []]) := by
  rfl

theorem scenario_saveBook :
    resolvers.Mutation.saveBook sampleLayer [ada []] bookB1 ⟨some ⟨0⟩⟩ =
      (.ok (some (ada [bookB1])), [ada [bookB1]]) := by
  rfl

theorem scenario_deleteBook :
    resolvers.Mutation.deleteBook [ada [bookB1]] "b1" ⟨some ⟨0⟩⟩ =
      (.ok (some (ada [])), [ada []]) := by
  rfl

/-! ## Lookup lemmas -/

theorem findOne_login_eq_some (store : Store) (x : String) (u : User) :
    User.findOne store (fun v => v.username == x || v.email == x) = some u ↔
      Located store x u := by
  unfold User.findOne Located
  rw [List.find?_eq_some]
  constructor
  · rintro ⟨hu, before, after, hs, hb⟩
    refine ⟨before, after, hs, by simpa using hu, ?_⟩
    intro v hv
    simpa using hb v hv
  · rintro ⟨before, after, hs, hu, hb⟩
    refine ⟨by simpa using hu, before, after, hs, ?_⟩
    intro v hv
    simpa using hb v hv

theorem findOne_login_eq_none (store : Store) (x : String) :
    User.findOne store (fun v => v.username == x || v.email == x) = none ↔
      ∀ u ∈ store, ¬ (u.username = x ∨ u.email = x) := by
  unfold User.findOne
  rw [List.find?_eq_none]
  constructor
  · intro h u hu
    simpa using h u hu
  · intro h u hu
    simpa using h u hu

theorem findOne_id_eq_some (store : Store) (id : ID) (u : User) :
    User.findOne store (fun v => v._id == id) = some u ↔ StoredAs store id u := by
  unfold User.findOne StoredAs
  rw [List.find?_eq_some]
  constructor
  · rintro ⟨hu, before, after, hs, hb⟩
    refine ⟨before, after, hs, by simpa using hu, ?_⟩
    intro v hv
    simpa using hb v hv
  · rintro ⟨before, after, hs, hu, hb⟩
    refine ⟨by simpa using hu, before, after, hs, ?_⟩
    intro v hv
    simpa using hb v hv

theorem findOne_id_eq_none (store : Store) (id : ID) :
    User.findOne store (fun v => v._id == id) = none ↔ ∀ u ∈ store, u._id ≠ id := by
  unfold User.findOne
  rw [List.find?_eq_none]
  constructor
  · intro h u hu
    simpa using h u hu
  · intro h u hu
    simpa using h u hu

theorem Located.unique {store : Store} {x : String} {u v : User}
    (hu : Located store x u) (hv : Located store x v) : u = v := by
  rw [← findOne_login_eq_some] at hu hv
  rw [hu] at hv
  exact Option.some.inj hv

/-! ## loginUser -/

/-- C1: `loginUser` fails exactly when no stored user has the given username or
email, or the located user (the first such document) is rejected by the password
check; otherwise it returns the AuthPayload made of the located user and the
token the issuer produces for it. A rejected password for a located user never
yields a payload, and the store is left as it was. -/
theorem loginUser_contract (dl : DataLayer) (store : Store) (usernameOrEmail password : String) :
    ((∃ e, (resolvers.Mutation.loginUser dl store usernameOrEmail password).1 = .error e) ↔
      ((∀ u ∈ store, ¬ (u.username = usernameOrEmail ∨ u.email = usernameOrEmail)) ∨
        ∃ u, Located store usernameOrEmail u ∧ dl.isCorrectPassword u password = false)) ∧
    ((¬ ∃ e, (resolvers.Mutation.loginUser dl store usernameOrEmail password).1 = .error e) →
      ∃ u, Located store usernameOrEmail u ∧ dl.isCorrectPassword u password = true ∧
        (resolvers.Mutation.loginUser dl store usernameOrEmail password).1 =
          .ok { token := dl.signToken u, user := u }) ∧
    (∀ u, Located store usernameOrEmail u → dl.isCorrectPassword u password = false →
      ∀ payload, (resolvers.Mutation.loginUser dl store usernameOrEmail password).1 ≠
        .ok payload) ∧
    (resolvers.Mutation.loginUser dl store usernameOrEmail password).2 = store := by
  cases hfind : User.findOne store
      (fun v => v.username == usernameOrEmail || v.email == usernameOrEmail) with
  | none =>
    have hnone := (findOne_login_eq_none store usernameOrEmail).1 hfind
    have hout : resolvers.Mutation.loginUser dl store usernameOrEmail password =
        (.error (.Error "Invalid credentials"), store) := by
      simp only [resolvers.Mutation.loginUser, hfind]
    rw [hout]
    refine ⟨⟨fun _ => Or.inl hnone, fun _ => ⟨_, rfl⟩⟩, ?_, ?_, rfl⟩
    · intro h
      exact absurd ⟨_, rfl⟩ h
    · intro u hu
      rw [← findOne_login_eq_some, hfind] at hu
      cases hu
  | some user =>
    have hloc := (findOne_login_eq_some store usernameOrEmail user).1 hfind
    cases hpw : dl.isCorrectPassword user password with
    | false =>
      have hout : resolvers.Mutation.loginUser dl store usernameOrEmail password =
          (.error (.Error "Invalid credentials"), store) := by
        simp [resolvers.Mutation.loginUser, hfind, hpw]
      rw [hout]
      refine ⟨⟨fun _ => Or.inr ⟨user, hloc, hpw⟩, fun _ => ⟨_, rfl⟩⟩, ?_, ?_, rfl⟩
      · intro h
        exact absurd ⟨_, rfl⟩ h
      · intro u _ _ payload h
        cases h
    | true =>
      have hout : resolvers.Mutation.loginUser dl store usernameOrEmail password =
          (.ok { token := dl.signToken user, user := user }, store) := by
        simp [resolvers.Mutation.loginUser, hfind, hpw]
      rw [hout]
      refine ⟨⟨?_, ?_⟩, ?_, ?_, rfl⟩
      · rintro ⟨e, he⟩
        cases he
      · rintro (hno | ⟨u, hu, hrej⟩)
        · obtain ⟨before, after, hs, hm, _⟩ := hloc
          exact absurd hm (hno user (by rw [hs]; simp))
        · rw [Located.unique hu hloc, hpw] at hrej
          cases hrej
      · intro _
        exact ⟨user, hloc, hpw, rfl⟩
      · intro u hu hrej
        rw [Located.unique hu hloc, hpw] at hrej
        cases hrej

/-- C2: the two failure causes of `loginUser` cannot be told apart: a run in
which no stored user matches and a run in which a user is located but the
password check rejects throw the same value, `Error "Invalid credentials"`,
whatever the stores, the identifiers, the passwords and the located user. -/
theorem loginUser_failures_indistinguishable (dl : DataLayer)
    (store1 store2 : Store) (x1 p1 x2 p2 : String) (u : User)
    (hnone : ∀ v ∈ store1, ¬ (v.username = x1 ∨ v.email = x1))
    (hloc : Located store2 x2 u) (hrej : dl.isCorrectPassword u p2 = false) :
    (resolvers.Mutation.loginUser dl store1 x1 p1).1 =
        (resolvers.Mutation.loginUser dl store2 x2 p2).1 ∧
      (resolvers.Mutation.loginUser dl store1 x1 p1).1 =
        .error (.Error "Invalid credentials") := by
  have h1 : (resolvers.Mutation.loginUser dl store1 x1 p1).1 =
      .error (.Error "Invalid credentials") := by
    have hf := (findOne_login_eq_none store1 x1).2 hnone
    simp only [resolvers.Mutation.loginUser, hf]
  have h2 : (resolvers.Mutation.loginUser dl store2 x2 p2).1 =
      .error (.Error "Invalid credentials") := by
    have hf := (findOne_login_eq_some store2 x2 u).2 hloc
    simp [resolvers.Mutation.loginUser, hf, hrej]
  exact ⟨h1.trans h2.symm, h1⟩

/-- Witness for C2: an empty store against a stored `ada` with a wrong
password. -/
theorem loginUser_failures_indistinguishable_witness :
    (resolvers.Mutation.loginUser sampleLayer [] "ada" "secret").1 =
        (resolvers.Mutation.loginUser sampleLayer [ada []] "ada" "wrong").1 ∧
      (resolvers.Mutation.loginUser sampleLayer [] "ada" "secret").1 =
        .error (.Error "Invalid credentials") :=
  loginUser_failures_indistinguishable sampleLayer [] [ada []] "ada" "secret" "ada" "wrong"
    (ada []) (by simp) ⟨[], [], rfl, Or.inl rfl, by simp⟩ (by decide)

/-- C3 as stated fails: with a wrong password for the stored user `ada`, and
with an empty store, `loginUser` throws the plain `Error "Invalid credentials"`,
which is not an `AuthenticationError`, whatever its message. -/
theorem loginUser_error_is_not_AuthenticationError :
    (resolvers.Mutation.loginUser sampleLayer [ada []] "ada" "wrong").1 =
        .error (.Error "Invalid credentials") ∧
      (resolvers.Mutation.loginUser sampleLayer [] "ada" "secret").1 =
        .error (.Error "Invalid credentials") ∧
      ∀ message, (resolvers.Mutation.loginUser sampleLayer [ada []] "ada" "wrong").1 ≠
        .error (.AuthenticationError message) := by
  refine ⟨by rfl, by rfl, ?_⟩
  intro message h
  have h1 : (resolvers.Mutation.loginUser sampleLayer [ada []] "ada" "wrong").1 =
      .error (.Error "Invalid credentials") := by rfl
  rw [h1] at h
  cases h

/-- C3, amended: whenever `loginUser` rejects a login, what it throws is the
plain `Error` carrying the message "Invalid credentials". -/
theorem loginUser_error_kind (dl : DataLayer) (store : Store) (usernameOrEmail password : String)
    (h : ∃ e, (resolvers.Mutation.loginUser dl store usernameOrEmail password).1 = .error e) :
    (resolvers.Mutation.loginUser dl store usernameOrEmail password).1 =
      .error (.Error "Invalid credentials") := by
  obtain ⟨e, he⟩ := h
  unfold resolvers.Mutation.loginUser at he ⊢
  split
  · rfl
  · rename_i user hfind
    rw [hfind] at he
    cases hpw : dl.isCorrectPassword user password
    · simp
    · simp [hpw] at he

/-- Witness for C3 amended: a wrong password for the stored user `ada`. -/
theorem loginUser_error_kind_witness :
    (∃ e, (resolvers.Mutation.loginUser sampleLayer [ada []] "ada" "wrong").1 = .error e) ∧
      (resolvers.Mutation.loginUser sampleLayer [ada []] "ada" "wrong").1 =
        .error (.Error "Invalid credentials") :=
  ⟨⟨.Error "Invalid credentials", by rfl⟩,
    loginUser_error_kind sampleLayer [ada []] "ada" "wrong"
      ⟨.Error "Invalid credentials", by rfl⟩⟩

/-! ## findOneAndUpdate -/

theorem findOneAndUpdate_of_none (f : User → Bool) (g : User → User) :
    ∀ s : Store, User.findOne s f = none → User.findOneAndUpdate f g s = (none, s)
  | [], _ => rfl
  | doc :: rest, h => by
    unfold User.findOne at h
    rw [List.find?_cons] at h
    cases hf : f doc with
    | true => simp [hf] at h
    | false =>
      simp only [hf] at h
      have ih := findOneAndUpdate_of_none f g rest h
      simp [User.findOneAndUpdate, hf, ih]

theorem findOneAndUpdate_append (f : User → Bool) (g : User → User) (u : User)
    (after : Store) (hu : f u = true) :
    ∀ before : Store, (∀ v ∈ before, f v = false) →
      User.findOneAndUpdate f g (before ++ u :: after) = (some (g u), before ++ g u :: after)
  | [], _ => by simp [User.findOneAndUpdate, hu]
  | doc :: rest, h => by
    have hdoc : f doc = false := h doc (by simp)
    have ih := findOneAndUpdate_append f g u after hu rest
      (fun v hv => h v (by simp [hv]))
    simp [User.findOneAndUpdate, hdoc, ih]

theorem findOneAndUpdate_stored (g : User → User) {store : Store} {id : ID} {u : User}
    (hu : StoredAs store id u) :
    ∃ before after, store = before ++ u :: after ∧ (∀ v ∈ before, v._id ≠ id) ∧
      User.findOneAndUpdate (fun v => v._id == id) g store =
        (some (g u), before ++ g u :: after) := by
  obtain ⟨before, after, hs, hid, hb⟩ := hu
  refine ⟨before, after, hs, hb, ?_⟩
  rw [hs]
  exact findOneAndUpdate_append _ g u after (by simpa using hid) before
    (fun v hv => by simpa using hb v hv)

theorem findOneAndUpdate_idem (f : User → Bool) (g : User → User)
    (hf : ∀ v, f (g v) = f v) (hg : ∀ v, g (g v) = g v) :
    ∀ s : Store, User.findOneAndUpdate f g (User.findOneAndUpdate f g s).2 =
      User.findOneAndUpdate f g s
  | [] => rfl
  | doc :: rest => by
    cases hdoc : f doc with
    | true =>
      have h2 : f (g doc) = true := by rw [hf, hdoc]
      simp [User.findOneAndUpdate, hdoc, h2, hg]
    | false =>
      have ih := findOneAndUpdate_idem f g hf hg rest
      simp [User.findOneAndUpdate, hdoc, ih]

theorem findOneAndUpdate_forall (f : User → Bool) (g : User → User) (P : User → Prop)
    (hg : ∀ v, P v → P (g v)) :
    ∀ s : Store, (∀ u ∈ s, P u) → ∀ u ∈ (User.findOneAndUpdate f g s).2, P u
  | [], _ => by simp [User.findOneAndUpdate]
  | doc :: rest, h => by
    have hdoc : P doc := h doc (by simp)
    have hrest : ∀ u ∈ rest, P u := fun u hu => h u (by simp [hu])
    have ih := findOneAndUpdate_forall f g P hg rest hrest
    cases hf : f doc with
    | true =>
      intro u hu
      have hfau : User.findOneAndUpdate f g (doc :: rest) =
          (some (g doc), g doc :: rest) := by
        simp [User.findOneAndUpdate, hf]
      rw [hfau] at hu
      rcases List.mem_cons.1 hu with h | hu1
      · rw [h]
        exact hg doc hdoc
      · exact hrest u hu1
    | false =>
      intro u hu
      have hfau : User.findOneAndUpdate f g (doc :: rest) =
          ((User.findOneAndUpdate f g rest).1, doc :: (User.findOneAndUpdate f g rest).2) := by
        simp [User.findOneAndUpdate, hf]
      rw [hfau] at hu
      rcases List.mem_cons.1 hu with h | hu1
      · rw [h]
        exact hdoc
      · exact ih u hu1

theorem addToSet_id (input : Book) (v : User) : (addToSet input v)._id = v._id := by
  unfold addToSet
  split <;> rfl

theorem addToSet_idem (input : Book) (v : User) :
    addToSet input (addToSet input v) = addToSet input v := by
  by_cases h : input ∈ v.savedBooks
  · simp [addToSet, h]
  · simp [addToSet, h]

theorem pull_idem (bookId : String) (v : User) : pull bookId (pull bookId v) = pull bookId v := by
  simp [pull, List.filter_filter]

theorem addToSet_core (input : Book) (v : User) :
    ((addToSet input v)._id, (addToSet input v).username, (addToSet input v).email,
      (addToSet input v).password) = (v._id, v.username, v.email, v.password) := by
  unfold addToSet
  split <;> rfl

theorem addToSet_count (input : Book) (v : User) :
    (addToSet input v).savedBooks.count input = max 1 (v.savedBooks.count input) := by
  by_cases hmem : input ∈ v.savedBooks
  · have hpos : 0 < v.savedBooks.count input := List.count_pos_iff.2 hmem
    simp only [addToSet, hmem, if_true]
    omega
  · have hzero : v.savedBooks.count input = 0 := List.count_eq_zero.2 hmem
    simp [addToSet, hmem, hzero]

theorem saveBook_stored (dl : DataLayer) (store : Store) (input : SaveBookInput)
    (caller : ContextUser) (u : User) (hu : StoredAs store caller._id u)
    (hvalid : dl.validBook input = true) :
    (resolvers.Mutation.saveBook dl store input ⟨some caller⟩).1 =
        .ok (some (addToSet input u)) ∧
      StoredAs (resolvers.Mutation.saveBook dl store input ⟨some caller⟩).2 caller._id
        (addToSet input u) := by
  obtain ⟨before, after, hs, hb, hfau⟩ := findOneAndUpdate_stored (addToSet input) hu
  have hid : u._id = caller._id := by
    obtain ⟨_, _, _, h, _⟩ := hu
    exact h
  constructor
  · simp [resolvers.Mutation.saveBook, hvalid, hfau]
  · simp only [resolvers.Mutation.saveBook, hvalid, hfau, if_true]
    exact ⟨before, after, rfl, by rw [addToSet_id, hid], hb⟩

/-! ## saveBook -/

/-- C4 as stated fails. `ada` has saved `b1` with `description` omitted; she
saves `b1` again with `description: null`. The stored entry is equal to the
input in all six fields, yet `saveBook` appends the input: `savedBooks` is not
the previous list, and a caller now reads two entries with the same six
values. -/
theorem saveBook_appends_field_equal_copy :
    EqualInAllFields bookB1 bookB1Null ∧ sampleLayer.validBook bookB1Null = true ∧
    resolvers.Mutation.saveBook sampleLayer [ada [bookB1]] bookB1Null ⟨some ⟨0⟩⟩ =
      (.ok (some (ada [bookB1, bookB1Null])), [ada [bookB1, bookB1Null]]) ∧
    (typeDefs.User.resolve (ada [bookB1, bookB1Null])).savedBooks =
      [typeDefs.Book.resolve bookB1Null, typeDefs.Book.resolve bookB1Null] :=
  ⟨by rfl, by rfl, by rfl, by rfl⟩

/-- C4, amended: for a caller present in the store and a valid Book input,
`saveBook` returns the caller's updated document, which is now the caller's
document in the store; its `_id`, username, email and stored password are as
before; its `savedBooks` is the previous list when that already holds the input
as a document (same keys, same values, an omitted key differing from `null`),
and otherwise the previous list followed by the input. The number of entries
that are the input document is the previous number, or one when there was none:
no second identical copy is appended. In particular, when no previous entry is
equal to the input in all fields, the input is appended. -/
theorem saveBook_contract (dl : DataLayer) (store : Store) (input : SaveBookInput)
    (caller : ContextUser) (u : User) (hu : StoredAs store caller._id u)
    (hvalid : dl.validBook input = true) :
    ∃ updated,
      (resolvers.Mutation.saveBook dl store input ⟨some caller⟩).1 = .ok (some updated) ∧
      StoredAs (resolvers.Mutation.saveBook dl store input ⟨some caller⟩).2 caller._id updated ∧
      updated._id = u._id ∧ updated.username = u.username ∧ updated.email = u.email ∧
      updated.password = u.password ∧
      (input ∈ u.savedBooks → updated.savedBooks = u.savedBooks) ∧
      (input ∉ u.savedBooks → updated.savedBooks = u.savedBooks ++ [input]) ∧
      updated.savedBooks.count input = max 1 (u.savedBooks.count input) ∧
      ((∀ b ∈ u.savedBooks, ¬ EqualInAllFields b input) →
        updated.savedBooks = u.savedBooks ++ [input]) := by
  obtain ⟨hres, hstored⟩ := saveBook_stored dl store input caller u hu hvalid
  refine ⟨addToSet input u, hres, hstored, ?_⟩
  have hcore := addToSet_core input u
  simp only [Prod.mk.injEq] at hcore
  have happend : input ∉ u.savedBooks →
      (addToSet input u).savedBooks = u.savedBooks ++ [input] := by
    intro hmem
    simp [addToSet, hmem]
  refine ⟨hcore.1, hcore.2.1, hcore.2.2.1, hcore.2.2.2, ?_, happend,
    addToSet_count input u, ?_⟩
  · intro hmem
    simp [addToSet, hmem]
  · intro hnone
    exact happend (fun hmem => hnone input hmem rfl)

/-- Witness for C4 amended: `ada`, stored after `bob` with one saved book, saves
a second, valid book. -/
theorem saveBook_contract_witness :
    StoredAs [bob, ada [bookB1]] 0 (ada [bookB1]) ∧ sampleLayer.validBook bookB2 = true ∧
      ∃ updated,
        (resolvers.Mutation.saveBook sampleLayer [bob, ada [bookB1]] bookB2 ⟨some ⟨0⟩⟩).1 =
          .ok (some updated) ∧
        StoredAs (resolvers.Mutation.saveBook sampleLayer [bob, ada [bookB1]] bookB2
          ⟨some ⟨0⟩⟩).2 0 updated ∧
        updated._id = (ada [bookB1])._id ∧ updated.username = (ada [bookB1]).username ∧
        updated.email = (ada [bookB1]).email ∧ updated.password = (ada [bookB1]).password ∧
        (bookB2 ∈ (ada [bookB1]).savedBooks → updated.savedBooks = (ada [bookB1]).savedBooks) ∧
        (bookB2 ∉ (ada [bookB1]).savedBooks →
          updated.savedBooks = (ada [bookB1]).savedBooks ++ [bookB2]) ∧
        updated.savedBooks.count bookB2 = max 1 ((ada [bookB1]).savedBooks.count bookB2) ∧
        ((∀ b ∈ (ada [bookB1]).savedBooks, ¬ EqualInAllFields b bookB2) →
          updated.savedBooks = (ada [bookB1]).savedBooks ++ [bookB2]) :=
  have hstored : StoredAs [bob, ada [bookB1]] 0 (ada [bookB1]) :=
    ⟨[bob], [], rfl, rfl, by simp [bob]⟩
  ⟨hstored, rfl,
    saveBook_contract sampleLayer [bob, ada [bookB1]] bookB2 ⟨0⟩ (ada [bookB1]) hstored rfl⟩

/-- C5 as stated fails on three inputs. (1) `ada` has saved `b1` with
`description` omitted and saves `b1` with `description: null` twice: both
documents stay, so two entries are equal to the book in all fields. (2) The
caller's `_id` matches no stored user: saving twice returns no user and the
store stays empty, so there is no `savedBooks` holding the book. (3) The
caller's `savedBooks` already holds the same document twice: saving it twice
leaves both. -/
theorem saveBook_twice_not_exactly_one :
    (resolvers.Mutation.saveBook sampleLayer
        (resolvers.Mutation.saveBook sampleLayer [ada [bookB1]] bookB1Null ⟨some ⟨0⟩⟩).2
        bookB1Null ⟨some ⟨0⟩⟩ =
      (.ok (some (ada [bookB1, bookB1Null])), [ada [bookB1, bookB1Null]]) ∧
     ((ada [bookB1, bookB1Null]).savedBooks.map typeDefs.Book.resolve).count
        (typeDefs.Book.resolve bookB1Null) = 2) ∧
    resolvers.Mutation.saveBook sampleLayer
        (resolvers.Mutation.saveBook sampleLayer [] bookB1 ⟨some ⟨0⟩⟩).2 bookB1 ⟨some ⟨0⟩⟩ =
      (.ok none, []) ∧
    (resolvers.Mutation.saveBook sampleLayer
        (resolvers.Mutation.saveBook sampleLayer [ada [bookB1, bookB1]] bookB1 ⟨some ⟨0⟩⟩).2
        bookB1 ⟨some ⟨0⟩⟩ =
      (.ok (some (ada [bookB1, bookB1])), [ada [bookB1, bookB1]]) ∧
     (ada [bookB1, bookB1]).savedBooks.count bookB1 = 2) :=
  ⟨⟨by rfl, by decide⟩, by rfl, by rfl, by decide⟩

/-- C5, amended: for every store, context and book, a second `saveBook` of the
same book returns what the first returned and leaves the store as the first
left it. When moreover the caller is present in the store, the book is valid and
the caller's `savedBooks` held that document at most once, then after the two
saves the caller's `savedBooks` holds that document (same keys, same values, an
omitted key differing from `null`) exactly once. -/
theorem saveBook_idempotent (dl : DataLayer) (store : Store) (input : SaveBookInput)
    (context : Context) :
    resolvers.Mutation.saveBook dl (resolvers.Mutation.saveBook dl store input context).2
        input context =
      resolvers.Mutation.saveBook dl store input context ∧
    ∀ (caller : ContextUser) (u : User), context.user = some caller →
      StoredAs store caller._id u → dl.validBook input = true →
      u.savedBooks.count input ≤ 1 →
      ∃ updated,
        (resolvers.Mutation.saveBook dl
          (resolvers.Mutation.saveBook dl store input context).2 input context).1 =
            .ok (some updated) ∧
        StoredAs (resolvers.Mutation.saveBook dl
          (resolvers.Mutation.saveBook dl store input context).2 input context).2
            caller._id updated ∧
        updated.savedBooks.count input = 1 := by
  have hidem : resolvers.Mutation.saveBook dl
      (resolvers.Mutation.saveBook dl store input context).2 input context =
        resolvers.Mutation.saveBook dl store input context := by
    obtain ⟨user⟩ := context
    cases user with
    | none => rfl
    | some caller =>
      cases hvalid : dl.validBook input with
      | false => simp [resolvers.Mutation.saveBook, hvalid]
      | true =>
        have h := findOneAndUpdate_idem (fun v => v._id == caller._id) (addToSet input)
          (fun v => by simp [addToSet_id]) (addToSet_idem input) store
        simp only [resolvers.Mutation.saveBook, hvalid, if_true]
        rw [h]
  refine ⟨hidem, ?_⟩
  intro caller u hctx hu hvalid hcount
  rw [hidem]
  obtain ⟨user⟩ := context
  simp only at hctx
  subst hctx
  obtain ⟨hres, hstored⟩ := saveBook_stored dl store input caller u hu hvalid
  refine ⟨addToSet input u, hres, hstored, ?_⟩
  rw [addToSet_count]
  omega

/-- Witness for C5 amended: `ada`, stored with `b1` saved with `description`
omitted, saves `b1` with `description: null` twice. -/
theorem saveBook_idempotent_witness :
    StoredAs [ada [bookB1]] 0 (ada [bookB1]) ∧ sampleLayer.validBook bookB1Null = true ∧
      (ada [bookB1]).savedBooks.count bookB1Null ≤ 1 ∧
      ∃ updated,
        (resolvers.Mutation.saveBook sampleLayer
          (resolvers.Mutation.saveBook sampleLayer [ada [bookB1]] bookB1Null ⟨some ⟨0⟩⟩).2
            bookB1Null ⟨some ⟨0⟩⟩).1 = .ok (some updated) ∧
        StoredAs (resolvers.Mutation.saveBook sampleLayer
          (resolvers.Mutation.saveBook sampleLayer [ada [bookB1]] bookB1Null ⟨some ⟨0⟩⟩).2
            bookB1Null ⟨some ⟨0⟩⟩).2 0 updated ∧
        updated.savedBooks.count bookB1Null = 1 :=
  have hstored : StoredAs [ada [bookB1]] 0 (ada [bookB1]) := ⟨[], [], rfl, rfl, by simp⟩
  ⟨hstored, rfl, by decide,
    (saveBook_idempotent sampleLayer [ada [bookB1]] bookB1Null ⟨some ⟨0⟩⟩).2 ⟨0⟩ (ada [bookB1])
      rfl hstored rfl (by decide)⟩

/-! ## deleteBook -/

/-- C6: for a caller present in the store, `deleteBook` returns the caller's
updated document, which is now the caller's document in the store; its `_id`,
username, email and stored password are as before; its `savedBooks` is the
previous list without the entries whose `bookId` is the argument: none of those
remains, every other entry is kept, and the kept entries are in their previous
order. -/
theorem deleteBook_contract (store : Store) (bookId : String) (caller : ContextUser)
    (u : User) (hu : StoredAs store caller._id u) :
    ∃ updated,
      (resolvers.Mutation.deleteBook store bookId ⟨some caller⟩).1 = .ok (some updated) ∧
      StoredAs (resolvers.Mutation.deleteBook store bookId ⟨some caller⟩).2 caller._id updated ∧
      updated._id = u._id ∧ updated.username = u.username ∧ updated.email = u.email ∧
      updated.password = u.password ∧
      updated.savedBooks = u.savedBooks.filter (fun b => decide (b.bookId ≠ .value bookId)) ∧
      (∀ b ∈ updated.savedBooks, b.bookId ≠ .value bookId) ∧
      (∀ b ∈ u.savedBooks, b.bookId ≠ .value bookId → b ∈ updated.savedBooks) ∧
      updated.savedBooks.Sublist u.savedBooks := by
  obtain ⟨before, after, hs, hb, hfau⟩ := findOneAndUpdate_stored (pull bookId) hu
  have hid : u._id = caller._id := by
    obtain ⟨_, _, _, h, _⟩ := hu
    exact h
  refine ⟨pull bookId u, ?_, ?_, rfl, rfl, rfl, rfl, ?_, ?_, ?_, ?_⟩
  · simp [resolvers.Mutation.deleteBook, hfau]
  · simp only [resolvers.Mutation.deleteBook, hfau]
    exact ⟨before, after, rfl, hid, hb⟩
  · simp only [pull]
    congr 1
    funext b
    by_cases h : b.bookId = .value bookId <;> simp [bne, h]
  · intro b hb
    simp only [pull, List.mem_filter] at hb
    simpa using hb.2
  · intro b hb hne
    simp only [pull, List.mem_filter]
    exact ⟨hb, by simpa using hne⟩
  · exact List.filter_sublist _

/-- Witness for C6: `ada`, stored after `bob` with `b1`, `b2`, `b1` saved,
deletes `b1`. -/
theorem deleteBook_contract_witness :
    StoredAs [bob, ada [bookB1, bookB2, bookB1]] 0 (ada [bookB1, bookB2, bookB1]) ∧
      ∃ updated,
        (resolvers.Mutation.deleteBook [bob, ada [bookB1, bookB2, bookB1]] "b1"
          ⟨some ⟨0⟩⟩).1 = .ok (some updated) ∧
        StoredAs (resolvers.Mutation.deleteBook [bob, ada [bookB1, bookB2, bookB1]] "b1"
          ⟨some ⟨0⟩⟩).2 0 updated ∧
        updated._id = 0 ∧ updated.username = "ada" ∧ updated.email = "ada@x.com" ∧
        updated.password = "hash-secret" ∧
        updated.savedBooks = (ada [bookB1, bookB2, bookB1]).savedBooks.filter
          (fun b => decide (b.bookId ≠ .value "b1")) ∧
        (∀ b ∈ updated.savedBooks, b.bookId ≠ .value "b1") ∧
        (∀ b ∈ (ada [bookB1, bookB2, bookB1]).savedBooks, b.bookId ≠ .value "b1" →
          b ∈ updated.savedBooks) ∧
        updated.savedBooks.Sublist (ada [bookB1, bookB2, bookB1]).savedBooks :=
  have hstored :
      StoredAs [bob, ada [bookB1, bookB2, bookB1]] 0 (ada [bookB1, bookB2, bookB1]) :=
    ⟨[bob], [], rfl, rfl, by simp [bob]⟩
  ⟨hstored, deleteBook_contract [bob, ada [bookB1, bookB2, bookB1]] "b1" ⟨0⟩
    (ada [bookB1, bookB2, bookB1]) hstored⟩

/-- C7: `deleteBook` with a caller never throws. (i) When no entry of the
caller's `savedBooks` has the given `bookId`, it returns the caller's document
as it was and leaves the store unchanged; when the caller's `_id` matches no
stored user it returns no user and leaves the store unchanged. (ii) A second
`deleteBook` of the same `bookId` returns what the first returned and leaves the
store as the first left it. -/
theorem deleteBook_idempotent (store : Store) (bookId : String) (caller : ContextUser) :
    (∃ r, (resolvers.Mutation.deleteBook store bookId ⟨some caller⟩).1 = .ok r) ∧
    (∀ u, StoredAs store caller._id u → (∀ b ∈ u.savedBooks, b.bookId ≠ .value bookId) →
      resolvers.Mutation.deleteBook store bookId ⟨some caller⟩ = (.ok (some u), store)) ∧
    ((∀ v ∈ store, v._id ≠ caller._id) →
      resolvers.Mutation.deleteBook store bookId ⟨some caller⟩ = (.ok none, store)) ∧
    resolvers.Mutation.deleteBook
        (resolvers.Mutation.deleteBook store bookId ⟨some caller⟩).2 bookId ⟨some caller⟩ =
      resolvers.Mutation.deleteBook store bookId ⟨some caller⟩ := by
  refine ⟨⟨_, rfl⟩, ?_, ?_, ?_⟩
  · intro u hu hnone
    obtain ⟨before, after, hs, _, hfau⟩ := findOneAndUpdate_stored (pull bookId) hu
    have hpull : pull bookId u = u := by
      have hfilter : u.savedBooks.filter (fun b => b.bookId != .value bookId) = u.savedBooks := by
        rw [List.filter_eq_self]
        intro b hb
        simpa using hnone b hb
      simp [pull, hfilter]
    simp only [resolvers.Mutation.deleteBook, hfau, hpull]
    rw [hs]
  · intro habsent
    have hfind := (findOne_id_eq_none store caller._id).2 habsent
    simp only [resolvers.Mutation.deleteBook,
      findOneAndUpdate_of_none _ (pull bookId) store hfind]
  · have h := findOneAndUpdate_idem (fun v => v._id == caller._id) (pull bookId)
      (fun v => rfl) (pull_idem bookId) store
    simp only [resolvers.Mutation.deleteBook]
    rw [h]

/-- Witness for C7 (i): `ada` holds only `b2`; deleting `b1` returns her
document and the store as they were. -/
theorem deleteBook_idempotent_witness :
    StoredAs [bob, ada [bookB2]] 0 (ada [bookB2]) ∧
      (∀ b ∈ (ada [bookB2]).savedBooks, b.bookId ≠ .value "b1") ∧
      resolvers.Mutation.deleteBook [bob, ada [bookB2]] "b1" ⟨some ⟨0⟩⟩ =
        (.ok (some (ada [bookB2])), [bob, ada [bookB2]]) :=
  have hstored : StoredAs [bob, ada [bookB2]] 0 (ada [bookB2]) :=
    ⟨[bob], [], rfl, rfl, by simp [bob]⟩
  have hnone : ∀ b ∈ (ada [bookB2]).savedBooks, b.bookId ≠ .value "b1" := by
    simp [ada, bookB2]
  ⟨hstored, hnone,
    (deleteBook_idempotent [bob, ada [bookB2]] "b1" ⟨0⟩).2.1 (ada [bookB2]) hstored hnone⟩

/-! ## The no-duplicate invariant -/

theorem addToSet_nodup (input : Book) (v : User) (h : v.savedBooks.Nodup) :
    (addToSet input v).savedBooks.Nodup := by
  by_cases hmem : input ∈ v.savedBooks
  · simpa [addToSet, hmem] using h
  · simp only [addToSet, hmem, if_false]
    rw [List.nodup_append]
    refine ⟨h, List.nodup_singleton _, ?_⟩
    intro b hb hb1
    rw [List.mem_singleton] at hb1
    exact hmem (hb1 ▸ hb)

theorem pull_nodup (bookId : String) (v : User) (h : v.savedBooks.Nodup) :
    (pull bookId v).savedBooks.Nodup :=
  List.Nodup.filter _ h

theorem create_noDuplicates (dl : DataLayer) (store : Store) (input : CreateUserInput)
    (h : NoDuplicates store) : NoDuplicates (User.create dl store input).2 := by
  unfold User.create
  split
  · split
    · exact h
    · intro u hu
      rcases List.mem_append.1 hu with hu1 | hu1
      · exact h u hu1
      · rw [List.mem_singleton] at hu1
        rw [hu1]
        exact List.nodup_nil
  · exact h

theorem create_savedBooks (dl : DataLayer) (store : Store) (input : CreateUserInput)
    (user : User) (h : (User.create dl store input).1 = .ok user) : user.savedBooks = [] := by
  unfold User.create at h
  split at h
  · split at h
    · simp at h
    · simp only [Except.ok.injEq] at h
      rw [← h]
  · simp at h

theorem createUser_savedBooks (dl : DataLayer) (store : Store) (input : CreateUserInput)
    (payload : AuthPayload)
    (h : (resolvers.Mutation.createUser dl store input).1 = .ok payload) :
    payload.user.savedBooks = [] := by
  unfold resolvers.Mutation.createUser at h
  split at h
  · simp at h
  · rename_i user store1 heq
    simp only [Except.ok.injEq] at h
    rw [← h]
    exact create_savedBooks dl store input user (by rw [heq])

theorem createUser_store (dl : DataLayer) (store : Store) (input : CreateUserInput) :
    (resolvers.Mutation.createUser dl store input).2 = (User.create dl store input).2 := by
  unfold resolvers.Mutation.createUser
  split <;> simp_all

theorem loginUser_store (dl : DataLayer) (store : Store) (x password : String) :
    (resolvers.Mutation.loginUser dl store x password).2 = store := by
  unfold resolvers.Mutation.loginUser
  split
  · rfl
  · split <;> rfl

theorem serve_noDuplicates (dl : DataLayer) (store : Store) (request : Request)
    (h : NoDuplicates store) : NoDuplicates (serve dl store request) := by
  cases request with
  | getUser id username => exact h
  | createUser input =>
    simp only [serve, createUser_store]
    exact create_noDuplicates dl store input h
  | loginUser x password =>
    simp only [serve, loginUser_store]
    exact h
  | saveBook input context =>
    obtain ⟨user⟩ := context
    cases user with
    | none => exact h
    | some caller =>
      cases hvalid : dl.validBook input with
      | false =>
        simp only [serve, resolvers.Mutation.saveBook, hvalid]
        exact h
      | true =>
        simp only [serve, resolvers.Mutation.saveBook, hvalid, if_true]
        exact findOneAndUpdate_forall _ _ (fun v => v.savedBooks.Nodup)
          (addToSet_nodup input) store h
  | deleteBook bookId context =>
    obtain ⟨user⟩ := context
    cases user with
    | none => exact h
    | some caller =>
      simp only [serve, resolvers.Mutation.deleteBook]
      exact findOneAndUpdate_forall _ _ (fun v => v.savedBooks.Nodup)
        (pull_nodup bookId) store h

theorem serveAll_noDuplicates (dl : DataLayer) (requests : List Request) :
    ∀ store : Store, NoDuplicates store → NoDuplicates (serveAll dl store requests) := by
  induction requests with
  | nil => intro store h; exact h
  | cons request rest ih =>
    intro store h
    exact ih (serve dl store request) (serve_noDuplicates dl store request h)

/-- C8 as stated fails. From the empty store, `ada` signs up, saves `b1` with
`description` omitted and saves `b1` with `description: null`: the reached store
holds both documents in her `savedBooks`, and they are equal in all fields, so
the six-field values a caller reads from her list are not free of duplicates. -/
theorem reachable_store_with_field_equal_entries :
    serveAll sampleLayer []
        [.createUser ⟨some "ada", some "ada@x.com", some "secret"⟩,
          .saveBook bookB1 ⟨some ⟨0⟩⟩, .saveBook bookB1Null ⟨some ⟨0⟩⟩] =
      [ada [bookB1, bookB1Null]] ∧
    EqualInAllFields bookB1 bookB1Null ∧ bookB1 ≠ bookB1Null ∧
    ¬ ((ada [bookB1, bookB1Null]).savedBooks.map typeDefs.Book.resolve).Nodup :=
  ⟨by rfl, by rfl, by decide, by decide⟩

/-- C8, amended: in every store reached from the empty store by a sequence of
`getUser`, `createUser`, `loginUser`, `saveBook` and `deleteBook` requests (with
any arguments and any context), no user's `savedBooks` holds the same book
document twice (same keys, same values, an omitted key differing from `null`):
the list has no duplicate, and every document occurs in it at most once. The
steps: every request preserves the predicate, a user returned by `createUser`
has an empty `savedBooks`, and `getUser` and `loginUser` leave the store as it
was. -/
theorem noDuplicates_reachable (dl : DataLayer) (requests : List Request) :
    NoDuplicates (serveAll dl [] requests) ∧
    (∀ u ∈ serveAll dl [] requests, ∀ b : Book, u.savedBooks.count b ≤ 1) ∧
    (∀ store request, NoDuplicates store → NoDuplicates (serve dl store request)) ∧
    (∀ store input payload, (resolvers.Mutation.createUser dl store input).1 = .ok payload →
      payload.user.savedBooks = []) ∧
    (∀ store id username, (resolvers.Query.getUser store id username).2 = store) ∧
    (∀ store x password, (resolvers.Mutation.loginUser dl store x password).2 = store) := by
  have h : NoDuplicates (serveAll dl [] requests) :=
    serveAll_noDuplicates dl requests [] (by intro u hu; cases hu)
  refine ⟨h, fun u hu => List.nodup_iff_count_le_one.1 (h u hu),
    fun store request => serve_noDuplicates dl store request, ?_, fun _ _ _ => rfl,
    fun store x password => loginUser_store dl store x password⟩
  intro store input payload hp
  exact createUser_savedBooks dl store input payload hp

/-! ## createUser then getUser -/

/-- C9: for a CreateUserInput with all three fields present whose username and
email are used by no stored user, `createUser` succeeds: it stores a new user
after the existing ones and returns the AuthPayload of that user and the token
issued for it; the user's username and email are the input's. A following
`getUser` by that username on the resulting store returns that same user. What
a caller receives for it is the `User` type's `_id`, username, email and (empty)
`savedBooks`: the password is no part of it. -/
theorem createUser_getUser_roundtrip (dl : DataLayer) (store : Store)
    (username email password : String)
    (hun : ∀ u ∈ store, u.username ≠ username) (hem : ∀ u ∈ store, u.email ≠ email) :
    ∃ user : User,
      resolvers.Mutation.createUser dl store ⟨some username, some email, some password⟩ =
        (.ok { token := dl.signToken user, user := user }, store ++ [user]) ∧
      user.username = username ∧ user.email = email ∧
      resolvers.Query.getUser (store ++ [user]) none (some username) =
        (.ok (some user), store ++ [user]) ∧
      typeDefs.User.resolve user =
        { _id := dl.newId store, username := username, email := email, savedBooks := [] } := by
  have hany : store.any (fun u => u.username == username || u.email == email) = false := by
    rw [List.any_eq_false]
    intro u hu
    simp [hun u hu, hem u hu]
  have hfind : store.find? (fun u => some u._id == none || some u.username == some username) =
      none := by
    rw [List.find?_eq_none]
    intro u hu
    simp [hun u hu]
  refine ⟨⟨dl.newId store, username, email, dl.hashPassword password, []⟩,
    ?_, rfl, rfl, ?_, rfl⟩
  · simp [resolvers.Mutation.createUser, User.create, hany]
  · simp only [resolvers.Query.getUser, User.findOne, List.find?_append, hfind]
    simp

/-- Witness for C9: `ada` signs up on a store that holds `bob`. -/
theorem createUser_getUser_roundtrip_witness :
    (∀ u ∈ [bob], u.username ≠ "ada") ∧ (∀ u ∈ [bob], u.email ≠ "ada@x.com") ∧
      ∃ user : User,
        resolvers.Mutation.createUser sampleLayer [bob]
            ⟨some "ada", some "ada@x.com", some "secret"⟩ =
          (.ok { token := sampleLayer.signToken user, user := user }, [bob] ++ [user]) ∧
        user.username = "ada" ∧ user.email = "ada@x.com" ∧
        resolvers.Query.getUser ([bob] ++ [user]) none (some "ada") =
          (.ok (some user), [bob] ++ [user]) ∧
        typeDefs.User.resolve user =
          ⟨sampleLayer.newId [bob], "ada", "ada@x.com", []⟩ :=
  have hun : ∀ u ∈ [bob], u.username ≠ "ada" := by simp [bob]
  have hem : ∀ u ∈ [bob], u.email ≠ "ada@x.com" := by simp [bob]
  ⟨hun, hem, createUser_getUser_roundtrip sampleLayer [bob] "ada" "ada@x.com" "secret" hun hem⟩

/-! ## Frame of the book-list mutations -/

theorem findOneAndUpdate_map {β : Type} (f : User → Bool) (g : User → User) (h : User → β)
    (hg : ∀ v, h (g v) = h v) :
    ∀ s : Store, (User.findOneAndUpdate f g s).2.map h = s.map h
  | [] => rfl
  | doc :: rest => by
    have ih := findOneAndUpdate_map f g h hg rest
    cases hf : f doc with
    | true => simp [User.findOneAndUpdate, hf, hg]
    | false => simp [User.findOneAndUpdate, hf, ih]

theorem findOneAndUpdate_index (f : User → Bool) (g : User → User) :
    ∀ s : Store, ∃ k : Nat,
      (∀ i : Nat, i ≠ k → (User.findOneAndUpdate f g s).2[i]? = s[i]?) ∧
      ((User.findOneAndUpdate f g s).2[k]? ≠ s[k]? → ∃ u, s[k]? = some u ∧ f u = true)
  | [] => ⟨0, fun _ _ => rfl, fun h => absurd rfl h⟩
  | doc :: rest => by
    cases hf : f doc with
    | true =>
      refine ⟨0, ?_, fun _ => ⟨doc, by simp, hf⟩⟩
      intro i hi
      obtain ⟨j, rfl⟩ := Nat.exists_eq_succ_of_ne_zero hi
      simp [User.findOneAndUpdate, hf]
    | false =>
      obtain ⟨k, hk1, hk2⟩ := findOneAndUpdate_index f g rest
      have hfau : User.findOneAndUpdate f g (doc :: rest) =
          ((User.findOneAndUpdate f g rest).1, doc :: (User.findOneAndUpdate f g rest).2) := by
        simp [User.findOneAndUpdate, hf]
      rw [hfau]
      refine ⟨k + 1, ?_, ?_⟩
      · intro i hi
        cases i with
        | zero => simp
        | succ j =>
          simp only [List.getElem?_cons_succ]
          exact hk1 j (fun h => hi (by rw [h]))
      · intro h
        simp only [List.getElem?_cons_succ] at h ⊢
        exact hk2 h

theorem onlyCallerBooksChanged_refl (context : Context) (store : Store) :
    OnlyCallerBooksChanged context store store :=
  ⟨rfl, fun _ h => absurd rfl h, fun _ _ h => absurd rfl h⟩

theorem findOneAndUpdate_onlyCaller (g : User → User)
    (hg : ∀ v, ((g v)._id, (g v).username, (g v).email, (g v).password) =
      (v._id, v.username, v.email, v.password))
    (caller : ContextUser) (store : Store) :
    OnlyCallerBooksChanged ⟨some caller⟩ store
      (User.findOneAndUpdate (fun v => v._id == caller._id) g store).2 := by
  obtain ⟨k, hk1, hk2⟩ := findOneAndUpdate_index (fun v => v._id == caller._id) g store
  refine ⟨findOneAndUpdate_map _ g _ hg store, ?_, ?_⟩
  · intro i hi
    have hik : i = k := by
      by_contra hne
      exact hi (hk1 i hne)
    subst hik
    obtain ⟨u, hu, hfu⟩ := hk2 hi
    exact ⟨caller, u, rfl, hu, by simpa using hfu⟩
  · intro i j hi hj
    have hik : i = k := by
      by_contra hne
      exact hi (hk1 i hne)
    have hjk : j = k := by
      by_contra hne
      exact hj (hk1 j hne)
    rw [hik, hjk]

/-- C10: for every store, context and argument, `saveBook` and `deleteBook`
leave the list of users with their `_id`, username, email and stored password
as it was (no user created, none deleted), change at most one record, and change
only a record of a user whose `_id` is the caller's, in its `savedBooks` alone.
When the caller's `_id` matches no stored user, or the context has no user, the
store is left as it was. -/
theorem bookMutations_frame (dl : DataLayer) (store : Store) (input : SaveBookInput)
    (bookId : String) (context : Context) :
    OnlyCallerBooksChanged context store
      (resolvers.Mutation.saveBook dl store input context).2 ∧
    OnlyCallerBooksChanged context store
      (resolvers.Mutation.deleteBook store bookId context).2 ∧
    ((∀ caller, context.user = some caller → ∀ v ∈ store, v._id ≠ caller._id) →
      (resolvers.Mutation.saveBook dl store input context).2 = store ∧
      (resolvers.Mutation.deleteBook store bookId context).2 = store) := by
  obtain ⟨user⟩ := context
  cases user with
  | none =>
    exact ⟨onlyCallerBooksChanged_refl _ _, onlyCallerBooksChanged_refl _ _, fun _ => ⟨rfl, rfl⟩⟩
  | some caller =>
    refine ⟨?_, ?_, ?_⟩
    · cases hvalid : dl.validBook input with
      | false =>
        simp only [resolvers.Mutation.saveBook, hvalid]
        exact onlyCallerBooksChanged_refl _ _
      | true =>
        simp only [resolvers.Mutation.saveBook, hvalid, if_true]
        exact findOneAndUpdate_onlyCaller (addToSet input) (addToSet_core input) caller store
    · simp only [resolvers.Mutation.deleteBook]
      exact findOneAndUpdate_onlyCaller (pull bookId) (fun _ => rfl) caller store
    · intro habsent
      have hfind := (findOne_id_eq_none store caller._id).2 (habsent caller rfl)
      constructor
      · cases hvalid : dl.validBook input with
        | false => simp [resolvers.Mutation.saveBook, hvalid]
        | true =>
          simp only [resolvers.Mutation.saveBook, hvalid, if_true,
            findOneAndUpdate_of_none _ (addToSet input) store hfind]
      · simp only [resolvers.Mutation.deleteBook,
          findOneAndUpdate_of_none _ (pull bookId) store hfind]

end BookApi
